import Mathlib

/-!
# Verification of the loan amortization and payment-allocation engine

Shallow embedding of `calcular_cronograma` and `estado_cuotas` from
`src/app.py` (lines 409-469).  Money and rates are modelled as exact
rationals (`ℚ`), calendar dates as integer epoch-day numbers (`ℤ`).
Python's `round(x, 2)` is modelled as decimal round-half-to-even,
`int(x)` as truncation toward zero, and a `ZeroDivisionError` as an
explicit error value of an `Except`.
-/

/-- Python `int(x)`: truncation toward zero. -/
def pytrunc (x : ℚ) : ℤ := if 0 ≤ x then ⌊x⌋ else ⌈x⌉

/-- Round-half-to-even to the nearest integer, the tie-breaking rule of
Python's builtin `round`. -/
def rhe (x : ℚ) : ℤ :=
  if x - ⌊x⌋ < 1/2 then ⌊x⌋
  else if 1/2 < x - ⌊x⌋ then ⌊x⌋ + 1
  else if 2 ∣ ⌊x⌋ then ⌊x⌋ else ⌊x⌋ + 1

/-- Python `round(x, 2)`: round to two decimal places, half to even. -/
def round2 (x : ℚ) : ℚ := (rhe (x * 100) : ℚ) / 100

/-- One row of the amortization table built by `calcular_cronograma`
(keys `Periodo`, `Fecha`, `Cuota`, `Interes`, `Amortizacion`, `Saldo`). -/
structure Fila where
  periodo : ℕ
  fecha : ℤ
  cuota : ℚ
  interes : ℚ
  amortizacion : ℚ
  saldo : ℚ
  deriving DecidableEq, Repr

/-- The errors the Python code can raise: only `ZeroDivisionError`.  The
code defines no `InvalidTermError` or `InvalidInputError`. -/
inductive PyError where
  | zeroDivision
  deriving DecidableEq, Repr

/-- The loop `for i in range(1, pagos_totales + 1)` of
`calcular_cronograma`: build the remaining `c` rows starting at period
index `i`, carrying the running balance `saldo` (unrounded, exactly as
the source does). -/
def filas (cuota tasa_periodo : ℚ) (fecha_desembolso frecuencia : ℤ) :
    ℕ → ℕ → ℚ → List Fila
  | _, 0, _ => []
  | i, c + 1, saldo =>
    let interes := saldo * tasa_periodo
    let amortizacion := cuota - interes
    let saldo2 := max 0 (saldo - amortizacion)
    ⟨i, fecha_desembolso + pytrunc ((i * 365 : ℚ) / (frecuencia : ℚ)),
      round2 cuota, round2 interes, round2 amortizacion, round2 saldo2⟩ ::
      filas cuota tasa_periodo fecha_desembolso frecuencia (i + 1) c saldo2

/-- `pagos_totales = int(plazo_meses * frecuencia / 12)` from
`src/app.py:413`. -/
def pagosTotales (plazo_meses frecuencia : ℤ) : ℤ :=
  pytrunc ((plazo_meses * frecuencia : ℚ) / 12)

/-- `tasa_periodo = tasa_anual / 100 / frecuencia` from
`src/app.py:414`. -/
def tasaPeriodo (tasa_anual : ℚ) (frecuencia : ℤ) : ℚ :=
  tasa_anual / 100 / (frecuencia : ℚ)

/-- `calcular_cronograma(monto, tasa_anual, plazo_meses, frecuencia,
fecha_desembolso)` from `src/app.py:409`.  Division by zero (a zero
`frecuencia`, a zero `pagos_totales` on the zero-rate branch, or a zero
annuity denominator) surfaces as `PyError.zeroDivision`, exactly where
Python raises. -/
def calcular_cronograma (monto tasa_anual : ℚ) (plazo_meses frecuencia : ℤ)
    (fecha_desembolso : ℤ) : Except PyError (List Fila) :=
  let pagos_totales : ℤ := pagosTotales plazo_meses frecuencia
  if frecuencia = 0 then .error .zeroDivision
  else
    let tasa_periodo : ℚ := tasaPeriodo tasa_anual frecuencia
    if tasa_periodo = 0 then
      if pagos_totales = 0 then .error .zeroDivision
      else
        .ok (filas (monto / (pagos_totales : ℚ)) tasa_periodo
          fecha_desembolso frecuencia 1 pagos_totales.toNat monto)
    else
      if 1 + tasa_periodo = 0 ∧ 0 < pagos_totales then .error .zeroDivision
      else
        let denom : ℚ := 1 - (1 + tasa_periodo) ^ (-pagos_totales)
        if denom = 0 then .error .zeroDivision
        else
          .ok (filas (monto * (tasa_periodo / denom)) tasa_periodo
            fecha_desembolso frecuencia 1 pagos_totales.toNat monto)

/-- A recorded payment (table `pagos`): only the `monto` column is read
by `estado_cuotas`; the date column is carried for completeness. -/
structure Pago where
  monto : ℚ
  fecha : ℤ
  deriving DecidableEq, Repr

/-- The status strings `'Vencida'` / `'Al día'`. -/
inductive Estado where
  | vencida
  | alDia
  deriving DecidableEq, Repr

/-- One row of the annotated table returned by `estado_cuotas`: the
schedule row plus `Pagado`, `Pendiente`, `Estado`. -/
structure FilaEstado where
  fila : Fila
  pagado : ℚ
  pendiente : ℚ
  estado : Estado
  deriving DecidableEq, Repr

/-- The allocation loop of `estado_cuotas`: every row starts with
`Pagado = 0.0`; walking in order, `a_pagar = min(Cuota, restante)` is
assigned and subtracted, and the loop breaks once `restante <= 0`,
leaving all later rows at `Pagado = 0`. -/
def drain : List Fila → ℚ → List (Fila × ℚ)
  | [], _ => []
  | f :: fs, restante =>
    let a_pagar := min f.cuota restante
    let restante2 := restante - a_pagar
    (f, a_pagar) ::
      (if restante2 ≤ 0 then fs.map (fun g => (g, 0)) else drain fs restante2)

/-- `estado_cuotas(cronograma, pagos)` from `src/app.py:441`.  The
source reads the current date with `date.today()` inside the function;
that ambient value is the explicit argument `hoy` here.  There is no
grace-days parameter in the source. -/
def estado_cuotas (cronograma : List Fila) (pagos : List Pago) (hoy : ℤ) :
    List FilaEstado :=
  let pagos_totales := (pagos.map Pago.monto).sum
  (drain cronograma pagos_totales).map (fun p =>
    let pendiente := p.1.cuota - p.2
    ⟨p.1, p.2, pendiente,
      if p.1.fecha < hoy ∧ 0 < pendiente then .vencida else .alDia⟩)

/-- The running balance of the schedule loop, carried UNROUNDED between
periods exactly as the source carries `saldo`:
`saldoIter cuota tp s k` is the balance after `k` iterations started
from `s`. -/
def saldoIter (cuota tasa_periodo s : ℚ) : ℕ → ℚ
  | 0 => s
  | k + 1 =>
    let s2 := saldoIter cuota tasa_periodo s k
    max 0 (s2 - (cuota - s2 * tasa_periodo))

section RoundingLemmas

lemma rhe_ge_floor (x : ℚ) : ⌊x⌋ ≤ rhe x := by
  unfold rhe
  split_ifs <;> omega

lemma rhe_le_floor_add_one (x : ℚ) : rhe x ≤ ⌊x⌋ + 1 := by
  unfold rhe
  split_ifs <;> omega

lemma rhe_mono {x y : ℚ} (h : x ≤ y) : rhe x ≤ rhe y := by
  rcases lt_or_eq_of_le (Int.floor_mono h) with hf | hf
  · calc rhe x ≤ ⌊x⌋ + 1 := rhe_le_floor_add_one x
    _ ≤ ⌊y⌋ := by omega
    _ ≤ rhe y := rhe_ge_floor y
  · have hxy : x - ⌊x⌋ ≤ y - ⌊y⌋ := by
      rw [← hf]; exact sub_le_sub_right h _
    unfold rhe
    rw [hf] at *
    split_ifs <;> first | omega | (exfalso; linarith)

lemma rhe_nonneg {x : ℚ} (h : 0 ≤ x) : 0 ≤ rhe x := by
  have := rhe_ge_floor x
  have : (0 : ℤ) ≤ ⌊x⌋ := Int.floor_nonneg.mpr h
  omega

lemma rhe_close (x : ℚ) : |(rhe x : ℚ) - x| ≤ 1/2 := by
  have h1 := Int.floor_le x
  have h2 := Int.lt_floor_add_one x
  unfold rhe
  split_ifs with hb1 hb2 hb3 <;> rw [abs_le] <;> constructor <;>
    push_cast <;> linarith

lemma round2_mono {x y : ℚ} (h : x ≤ y) : round2 x ≤ round2 y := by
  unfold round2
  have : rhe (x * 100) ≤ rhe (y * 100) := rhe_mono (by linarith)
  have : ((rhe (x * 100) : ℚ)) ≤ ((rhe (y * 100) : ℚ)) := by exact_mod_cast this
  linarith

lemma round2_nonneg {x : ℚ} (h : 0 ≤ x) : 0 ≤ round2 x := by
  unfold round2
  have : (0 : ℤ) ≤ rhe (x * 100) := rhe_nonneg (by linarith)
  have : (0 : ℚ) ≤ (rhe (x * 100) : ℚ) := by exact_mod_cast this
  linarith

lemma round2_zero : round2 0 = 0 := by norm_num [round2, rhe]

lemma round2_close (x : ℚ) : |round2 x - x| ≤ 1/100 := by
  unfold round2
  have h := rhe_close (x * 100)
  rw [abs_le] at h ⊢
  constructor <;> [linarith [h.1]; linarith [h.2]]

end RoundingLemmas

section ScheduleLemmas

lemma pytrunc_intCast (n : ℤ) : pytrunc (n : ℚ) = n := by
  unfold pytrunc
  split_ifs <;> simp

lemma filas_length (cuota tp : ℚ) (f0 frec : ℤ) :
    ∀ (c i : ℕ) (s : ℚ), (filas cuota tp f0 frec i c s).length = c := by
  intro c
  induction c with
  | zero => intro i s; rfl
  | succ c ih => intro i s; simp only [filas, List.length_cons, ih]

lemma saldoIter_step (cuota tp s : ℚ) :
    ∀ k, saldoIter cuota tp (max 0 (s - (cuota - s * tp))) k =
      saldoIter cuota tp s (k + 1) := by
  intro k
  induction k with
  | zero => rfl
  | succ k ih => simp only [saldoIter, ih]

lemma filas_get (cuota tp : ℚ) (f0 frec : ℤ) :
    ∀ (c k i : ℕ) (s : ℚ) (h : k < (filas cuota tp f0 frec i c s).length),
      (filas cuota tp f0 frec i c s).get ⟨k, h⟩ =
        ⟨i + k, f0 + pytrunc ((((i + k : ℕ) : ℚ) * 365) / (frec : ℚ)),
         round2 cuota,
         round2 (saldoIter cuota tp s k * tp),
         round2 (cuota - saldoIter cuota tp s k * tp),
         round2 (saldoIter cuota tp s (k + 1))⟩ := by
  intro c
  induction c with
  | zero =>
    intro k i s h
    simp [filas_length] at h
  | succ c ih =>
    intro k i s h
    match k with
    | 0 =>
      simp only [filas, List.get, saldoIter, Nat.add_zero]
    | k + 1 =>
      have harith : i + 1 + k = i + (k + 1) := by omega
      simp only [filas, List.get]
      rw [ih k (i + 1) (max 0 (s - (cuota - s * tp)))]
      simp only [saldoIter_step, harith]

lemma saldoIter_bounds (cuota tp s : ℚ) (htp : 0 ≤ tp) (hs : 0 ≤ s)
    (hcu : s * tp < cuota) :
    ∀ k, 0 ≤ saldoIter cuota tp s k ∧ saldoIter cuota tp s k ≤ s := by
  intro k
  induction k with
  | zero => exact ⟨hs, le_refl s⟩
  | succ k ih =>
    obtain ⟨h0, hle⟩ := ih
    have hmul : saldoIter cuota tp s k * tp ≤ s * tp :=
      mul_le_mul_of_nonneg_right hle htp
    constructor
    · exact le_max_left _ _
    · exact max_le (by linarith) (by linarith)

lemma saldoIter_antitone (cuota tp s : ℚ) (htp : 0 ≤ tp) (hs : 0 ≤ s)
    (hcu : s * tp < cuota) (k : ℕ) :
    saldoIter cuota tp s (k + 1) ≤ saldoIter cuota tp s k := by
  obtain ⟨h0, hle⟩ := saldoIter_bounds cuota tp s htp hs hcu k
  have hmul : saldoIter cuota tp s k * tp ≤ s * tp :=
    mul_le_mul_of_nonneg_right hle htp
  exact max_le (by linarith) (by linarith)

end ScheduleLemmas

section DrainLemmas

lemma drain_length : ∀ (cron : List Fila) (r : ℚ),
    (drain cron r).length = cron.length := by
  intro cron
  induction cron with
  | nil => intro r; rfl
  | cons f fs ih =>
    intro r
    simp only [drain, List.length_cons]
    split_ifs
    · simp
    · simp [ih]

lemma min_drain_break {c r : ℚ} (h : r - min c r ≤ 0) : min c r = r :=
  le_antisymm (min_le_right _ _) (by linarith)

lemma min_drain_go {c r : ℚ} (h : ¬ r - min c r ≤ 0) : min c r = c := by
  push_neg at h
  have hlt : min c r < r := by linarith
  by_contra hh
  rcases min_cases c r with ⟨he, _⟩ | ⟨he, _⟩
  · exact hh he
  · rw [he] at hlt
    exact lt_irrefl r hlt

lemma drain_sum : ∀ (cron : List Fila) (r : ℚ), 0 ≤ r →
    (∀ f ∈ cron, 0 ≤ f.cuota) →
    ((drain cron r).map (fun p => p.2)).sum =
      min r ((cron.map Fila.cuota).sum) := by
  intro cron
  induction cron with
  | nil =>
    intro r hr _
    simp [drain, min_eq_right hr]
  | cons f fs ih =>
    intro r hr hc
    have hcf : 0 ≤ f.cuota := hc f (List.mem_cons_self f fs)
    have hcs : ∀ g ∈ fs, 0 ≤ g.cuota := fun g hg => hc g (List.mem_cons_of_mem f hg)
    have hsum : 0 ≤ (fs.map Fila.cuota).sum := by
      apply List.sum_nonneg
      intro x hx
      obtain ⟨g, hg, rfl⟩ := List.mem_map.mp hx
      exact hcs g hg
    simp only [drain, List.map_cons, List.sum_cons]
    split_ifs with hbreak
    · have hmin : min f.cuota r = r := min_drain_break hbreak
      have hrc : r ≤ f.cuota := hmin ▸ min_le_left f.cuota r
      have hzeros :
          (List.map (fun p => p.2) (List.map (fun g : Fila => (g, (0:ℚ))) fs)).sum = 0 := by
        rw [List.map_map]
        exact List.sum_eq_zero (fun x hx => by
          obtain ⟨g, _, h⟩ := List.mem_map.mp hx
          exact h.symm)
      rw [hmin, hzeros, min_eq_left (by linarith)]
      ring
    · have hmin : min f.cuota r = f.cuota := min_drain_go hbreak
      push_neg at hbreak
      rw [hmin] at hbreak ⊢
      rw [ih (r - f.cuota) (by linarith) hcs]
      rw [← min_add_add_left f.cuota (r - f.cuota) ((fs.map Fila.cuota).sum)]
      ring_nf

lemma drain_full_before : ∀ (cron : List Fila) (r : ℚ) (i j : ℕ), i < j →
    ∀ p q : Fila × ℚ, (drain cron r)[j]? = some q → 0 < q.2 →
      (drain cron r)[i]? = some p → p.2 = p.1.cuota := by
  intro cron
  induction cron with
  | nil =>
    intro r i j _ p q hq
    simp [drain] at hq
  | cons f fs ih =>
    intro r i j hij p q hq hqpos hp
    have hd : drain (f :: fs) r = (f, min f.cuota r) ::
        (if r - min f.cuota r ≤ 0 then fs.map (fun g => (g, 0))
         else drain fs (r - min f.cuota r)) := rfl
    rw [hd] at hq hp
    match j with
    | j2 + 1 =>
      rw [List.getElem?_cons_succ] at hq
      by_cases hbreak : r - min f.cuota r ≤ 0
      · rw [if_pos hbreak, List.getElem?_map] at hq
        rcases h2 : fs[j2]? with _ | g
        · rw [h2] at hq; simp at hq
        · rw [h2] at hq
          have hq2 : q = (g, 0) := by
            cases hq
            rfl
          rw [hq2] at hqpos
          exact absurd hqpos (lt_irrefl 0)
      · rw [if_neg hbreak] at hq
        match i with
        | 0 =>
          rw [List.getElem?_cons_zero, Option.some_inj] at hp
          rw [← hp]
          exact min_drain_go hbreak
        | i2 + 1 =>
          rw [List.getElem?_cons_succ, if_neg hbreak] at hp
          exact ih (r - min f.cuota r) i2 j2 (by omega) p q hq hqpos hp

end DrainLemmas

section CalcularLemmas

lemma calcular_ok_zero (monto tasa : ℚ) (plazo frec f0 : ℤ) (hf : ¬ frec = 0)
    (htp : tasaPeriodo tasa frec = 0) (hn : ¬ pagosTotales plazo frec = 0) :
    calcular_cronograma monto tasa plazo frec f0 =
      .ok (filas (monto / (pagosTotales plazo frec : ℚ)) (tasaPeriodo tasa frec)
        f0 frec 1 (pagosTotales plazo frec).toNat monto) := by
  simp only [calcular_cronograma, if_neg hf, if_pos htp, if_neg hn]

lemma calcular_ok_pos (monto tasa : ℚ) (plazo frec f0 : ℤ) (hf : ¬ frec = 0)
    (htp : ¬ tasaPeriodo tasa frec = 0)
    (hone : ¬ (1 + tasaPeriodo tasa frec = 0 ∧ 0 < pagosTotales plazo frec))
    (hd : ¬ (1 - (1 + tasaPeriodo tasa frec) ^ (-(pagosTotales plazo frec)) = 0)) :
    calcular_cronograma monto tasa plazo frec f0 =
      .ok (filas (monto * (tasaPeriodo tasa frec /
          (1 - (1 + tasaPeriodo tasa frec) ^ (-(pagosTotales plazo frec)))))
        (tasaPeriodo tasa frec) f0 frec 1 (pagosTotales plazo frec).toNat monto) := by
  simp only [calcular_cronograma, if_neg hf, if_neg htp, if_neg hone, if_neg hd]

lemma calcular_cases (monto tasa : ℚ) (plazo frec f0 : ℤ) (rows : List Fila)
    (hok : calcular_cronograma monto tasa plazo frec f0 = .ok rows) :
    (tasaPeriodo tasa frec = 0 ∧
      rows = filas (monto / (pagosTotales plazo frec : ℚ)) (tasaPeriodo tasa frec)
        f0 frec 1 (pagosTotales plazo frec).toNat monto) ∨
    (¬ tasaPeriodo tasa frec = 0 ∧
      rows = filas (monto * (tasaPeriodo tasa frec /
          (1 - (1 + tasaPeriodo tasa frec) ^ (-(pagosTotales plazo frec)))))
        (tasaPeriodo tasa frec) f0 frec 1 (pagosTotales plazo frec).toNat monto) := by
  simp only [calcular_cronograma] at hok
  split_ifs at hok with h1 h2 h3 h4 h5
  all_goals cases hok
  · exact Or.inl ⟨h2, rfl⟩
  · exact Or.inr ⟨h2, rfl⟩

lemma tasaPeriodo_nonneg (tasa : ℚ) (frec : ℤ) (ht : 0 ≤ tasa) (hf : 0 < frec) :
    0 ≤ tasaPeriodo tasa frec := by
  unfold tasaPeriodo
  have : (0:ℚ) < (frec : ℚ) := by exact_mod_cast hf
  positivity

lemma denom_bounds (tp : ℚ) (htp : 0 < tp) (n : ℤ) (hn : 0 < n) :
    0 < 1 - (1 + tp) ^ (-n) ∧ 1 - (1 + tp) ^ (-n) < 1 := by
  have h1 : (1:ℚ) < 1 + tp := by linarith
  have h0 : (0:ℚ) < 1 + tp := by linarith
  have hpow : 1 < (1 + tp) ^ n := one_lt_zpow₀ h1 hn
  have hpow0 : 0 < (1 + tp) ^ n := by positivity
  rw [zpow_neg]
  constructor
  · have : ((1 + tp) ^ n)⁻¹ < 1 := by
      rw [inv_lt_one_iff₀]
      right
      exact hpow
    linarith
  · have : 0 < ((1 + tp) ^ n)⁻¹ := by positivity
    linarith

/-- In the positive-rate branch the interest on the full principal is
strictly below the annuity payment. -/
lemma cuota_gt_interes (monto tp denom : ℚ) (hm : 0 < monto) (htp : 0 < tp)
    (hd0 : 0 < denom) (hd1 : denom < 1) :
    monto * tp < monto * (tp / denom) := by
  have hmt : 0 < monto * tp := by positivity
  rw [mul_div_assoc']
  rw [lt_div_iff₀ hd0]
  calc monto * tp * denom < monto * tp * 1 := by
        apply mul_lt_mul_of_pos_left hd1 hmt
  _ = monto * tp := by ring

end CalcularLemmas

section MoreScheduleLemmas

lemma pagosTotales_eq (p f n : ℤ) (h : (p * f : ℚ) / 12 = (n : ℚ)) :
    pagosTotales p f = n := by
  unfold pagosTotales
  rw [h, pytrunc_intCast]

lemma filas_cuota_mem (cuota tp : ℚ) (f0 frec : ℤ) :
    ∀ (c i : ℕ) (s : ℚ), ∀ fila ∈ filas cuota tp f0 frec i c s,
      fila.cuota = round2 cuota := by
  intro c
  induction c with
  | zero =>
    intro i s fila hf
    simp [filas] at hf
  | succ c ih =>
    intro i s fila hf
    rw [filas] at hf
    rcases List.mem_cons.mp hf with rfl | hmem
    · rfl
    · exact ih (i + 1) _ fila hmem

lemma filas_interes_mem (cuota tp : ℚ) (f0 frec : ℤ) (htp : tp = 0) :
    ∀ (c i : ℕ) (s : ℚ), ∀ fila ∈ filas cuota tp f0 frec i c s,
      fila.interes = 0 := by
  subst htp
  intro c
  induction c with
  | zero =>
    intro i s fila hf
    simp [filas] at hf
  | succ c ih =>
    intro i s fila hf
    rw [filas] at hf
    rcases List.mem_cons.mp hf with rfl | hmem
    · show round2 (s * 0) = 0
      rw [mul_zero, round2_zero]
    · exact ih (i + 1) _ fila hmem

lemma filas_saldo_props (cuota tp monto : ℚ) (f0 frec : ℤ) (c : ℕ)
    (htp : 0 ≤ tp) (hm : 0 ≤ monto) (hcu : monto * tp < cuota) :
    (∀ fila ∈ filas cuota tp f0 frec 1 c monto, 0 ≤ fila.saldo) ∧
    ∀ (k : ℕ) (h : k + 1 < (filas cuota tp f0 frec 1 c monto).length),
      ((filas cuota tp f0 frec 1 c monto).get ⟨k + 1, h⟩).saldo ≤
        ((filas cuota tp f0 frec 1 c monto).get ⟨k, Nat.lt_of_succ_lt h⟩).saldo := by
  constructor
  · intro fila hf
    obtain ⟨⟨k, hk⟩, hEq⟩ := List.mem_iff_get.mp hf
    rw [filas_get] at hEq
    rw [← hEq]
    exact round2_nonneg (saldoIter_bounds cuota tp monto htp hm hcu (k + 1)).1
  · intro k h
    rw [filas_get, filas_get]
    show round2 (saldoIter cuota tp monto (k + 1 + 1)) ≤
      round2 (saldoIter cuota tp monto (k + 1))
    exact round2_mono (saldoIter_antitone cuota tp monto htp hm hcu (k + 1))

end MoreScheduleLemmas

/-- C1: the allocator drains the pooled payment total in schedule order
with `applied = min(scheduledPayment, pool)`, so the paid total equals
`min(sum of payments, sum of scheduled payments)`; and on a 3-installment
schedule of 100 each with a 150 pool the paid/pending amounts are
(100,0), (50,50), (0,100). -/
theorem C1_conservation (cron : List Fila) (pagos : List Pago) (hoy : ℤ)
    (hp : ∀ p ∈ pagos, 0 ≤ p.monto) (hc : ∀ f ∈ cron, 0 ≤ f.cuota) :
    ((estado_cuotas cron pagos hoy).map FilaEstado.pagado).sum =
      min ((pagos.map Pago.monto).sum) ((cron.map Fila.cuota).sum) ∧
    (estado_cuotas [⟨1, 10, 100, 0, 100, 200⟩, ⟨2, 20, 100, 0, 100, 100⟩,
        ⟨3, 30, 100, 0, 100, 0⟩] [⟨150, 5⟩] 0).map
      (fun r => (r.pagado, r.pendiente)) = [(100, 0), (50, 50), (0, 100)] := by
  constructor
  · have hpool : 0 ≤ (pagos.map Pago.monto).sum := by
      apply List.sum_nonneg
      intro x hx
      obtain ⟨p, hp2, rfl⟩ := List.mem_map.mp hx
      exact hp p hp2
    have hmaps : (estado_cuotas cron pagos hoy).map FilaEstado.pagado =
        (drain cron ((pagos.map Pago.monto).sum)).map (fun p => p.2) := by
      simp only [estado_cuotas, List.map_map]
      rfl
    rw [hmaps, drain_sum cron _ hpool hc]
  · norm_num [estado_cuotas, drain]

/-- C1 witness: the conservation equation instantiated on the concrete
3-installment scenario. -/
theorem C1_conservation_witness :
    ((estado_cuotas [⟨1, 10, 100, 0, 100, 200⟩, ⟨2, 20, 100, 0, 100, 100⟩,
        ⟨3, 30, 100, 0, 100, 0⟩] [⟨150, 5⟩] 0).map FilaEstado.pagado).sum =
      min ((([⟨150, 5⟩] : List Pago)).map Pago.monto).sum
        ((([⟨1, 10, 100, 0, 100, 200⟩, ⟨2, 20, 100, 0, 100, 100⟩,
          ⟨3, 30, 100, 0, 100, 0⟩] : List Fila)).map Fila.cuota).sum :=
  (C1_conservation _ _ 0 (by simp) (by norm_num)).1

/-- C3: when `pagos_totales` resolves to 0 (here termMonths=5,
paymentsPerYear=2) the code raises a `ZeroDivisionError` on both rate
branches; no `InvalidTermError` exists in the code. -/
theorem C3_division_by_zero :
    calcular_cronograma 1000 0 5 2 0 = .error .zeroDivision ∧
    calcular_cronograma 1000 12 5 2 0 = .error .zeroDivision ∧
    pagosTotales 5 2 = 0 := by
  refine ⟨?_, ?_, ?_⟩ <;>
    norm_num [calcular_cronograma, pagosTotales, tasaPeriodo, pytrunc]

/-- C4 counterexample: an installment due 2 days before `asOf` with
positive pending amount is classified `Vencida` by the code, while the
claim's rule with graceDays = 3 classifies it Current (its due date is
not before `asOf - 3`). -/
theorem C4_counterexample :
    ((estado_cuotas [⟨1, 98, 50, 0, 50, 0⟩] [] 100).map FilaEstado.estado =
      [Estado.vencida]) ∧ ¬ ((98:ℤ) < 100 - 3) := by
  constructor
  · norm_num [estado_cuotas, drain]
  · norm_num

/-- C4 amended: `estado_cuotas` has no grace parameter (the grace window
is fixed at 0) and compares against the ambient current date `hoy` read
inside the function; a row is `Vencida` iff its due date is strictly
before `hoy` and its pending amount is positive. -/
theorem C4_estado_rule (cron : List Fila) (pagos : List Pago) (hoy : ℤ)
    (r : FilaEstado) (hr : r ∈ estado_cuotas cron pagos hoy) :
    r.estado = Estado.vencida ↔ (r.fila.fecha < hoy ∧ 0 < r.pendiente) := by
  simp only [estado_cuotas] at hr
  obtain ⟨p, hp, rfl⟩ := List.mem_map.mp hr
  show (if p.1.fecha < hoy ∧ 0 < p.1.cuota - p.2 then Estado.vencida
    else Estado.alDia) = Estado.vencida ↔ _
  split_ifs with hcond
  · exact iff_of_true rfl hcond
  · exact iff_of_false id hcond

/-- C4 witness: the status rule applied to the row of the
counterexample schedule. -/
theorem C4_estado_rule_witness :
    (⟨⟨1, 98, 50, 0, 50, 0⟩, 0, 50, Estado.vencida⟩ : FilaEstado).estado =
        Estado.vencida ↔
      ((⟨⟨1, 98, 50, 0, 50, 0⟩, 0, 50, Estado.vencida⟩ : FilaEstado).fila.fecha <
          100 ∧
        0 < (⟨⟨1, 98, 50, 0, 50, 0⟩, 0, 50, Estado.vencida⟩ : FilaEstado).pendiente) :=
  C4_estado_rule [⟨1, 98, 50, 0, 50, 0⟩] [] 100 _ (by norm_num [estado_cuotas, drain])

/-- C5: the allocation depends on the payment list only through the sum
of its amounts: equal totals give identical annotated schedules. -/
theorem C5_pool_only (cron : List Fila) (p1 p2 : List Pago) (hoy : ℤ)
    (h : (p1.map Pago.monto).sum = (p2.map Pago.monto).sum) :
    estado_cuotas cron p1 hoy = estado_cuotas cron p2 hoy := by
  simp only [estado_cuotas, h]

/-- C5 witness: one payment of 100 and two payments of 40 and 60 (in
different order and dates) annotate a schedule identically. -/
theorem C5_pool_only_witness :
    estado_cuotas [⟨1, 0, 50, 0, 50, 0⟩] [⟨100, 5⟩] 7 =
      estado_cuotas [⟨1, 0, 50, 0, 50, 0⟩] [⟨60, 9⟩, ⟨40, 1⟩] 7 :=
  C5_pool_only _ _ _ _ (by norm_num)

lemma filas_props_trivial (cuota tp monto : ℚ) (f0 frec : ℤ) :
    (∀ fila ∈ filas cuota tp f0 frec 1 0 monto, 0 ≤ fila.saldo) ∧
    ∀ (k : ℕ) (h : k + 1 < (filas cuota tp f0 frec 1 0 monto).length),
      ((filas cuota tp f0 frec 1 0 monto).get ⟨k + 1, h⟩).saldo ≤
        ((filas cuota tp f0 frec 1 0 monto).get ⟨k, Nat.lt_of_succ_lt h⟩).saldo := by
  constructor
  · intro fila hfm
    simp [filas] at hfm
  · intro k h
    rw [filas_length] at h
    omega

/-- C6: on every successfully generated schedule from a positive
principal, non-negative rate and positive frequency, the stored `Saldo`
is never negative (the update clamps at 0) and is non-increasing from
one row to the next. -/
theorem C6_saldo_props (monto tasa : ℚ) (plazo frec f0 : ℤ)
    (hm : 0 < monto) (ht : 0 ≤ tasa) (hf : 0 < frec) (rows : List Fila)
    (hok : calcular_cronograma monto tasa plazo frec f0 = .ok rows) :
    (∀ fila ∈ rows, 0 ≤ fila.saldo) ∧
    ∀ (k : ℕ) (h : k + 1 < rows.length),
      (rows.get ⟨k + 1, h⟩).saldo ≤
        (rows.get ⟨k, Nat.lt_of_succ_lt h⟩).saldo := by
  rcases calcular_cases monto tasa plazo frec f0 rows hok with ⟨htp, rfl⟩ | ⟨htp, rfl⟩
  · by_cases hn : 0 < pagosTotales plazo frec
    · apply filas_saldo_props
      · exact le_of_eq htp.symm
      · exact le_of_lt hm
      · rw [htp, mul_zero]
        apply div_pos hm
        exact_mod_cast hn
    · have hzero : (pagosTotales plazo frec).toNat = 0 :=
        Int.toNat_of_nonpos (not_lt.mp hn)
      rw [hzero]
      exact filas_props_trivial _ _ _ _ _
  · have htp2 : 0 < tasaPeriodo tasa frec :=
      lt_of_le_of_ne (tasaPeriodo_nonneg tasa frec ht hf) (Ne.symm htp)
    by_cases hn : 0 < pagosTotales plazo frec
    · obtain ⟨hd0, hd1⟩ := denom_bounds _ htp2 _ hn
      apply filas_saldo_props
      · exact le_of_lt htp2
      · exact le_of_lt hm
      · exact cuota_gt_interes monto _ _ hm htp2 hd0 hd1
    · have hzero : (pagosTotales plazo frec).toNat = 0 :=
        Int.toNat_of_nonpos (not_lt.mp hn)
      rw [hzero]
      exact filas_props_trivial _ _ _ _ _

/-- C6 witness: the final balance of a concrete 2-row schedule is
non-negative. -/
theorem C6_saldo_props_witness :
    (0:ℚ) ≤ ((⟨2, 60, 50, 0, 50, 0⟩ : Fila)).saldo :=
  (C6_saldo_props 100 0 2 12 0 (by norm_num) (by norm_num) (by norm_num)
    [⟨1, 30, 50, 0, 50, 50⟩, ⟨2, 60, 50, 0, 50, 0⟩]
    (by norm_num [calcular_cronograma, pagosTotales, tasaPeriodo, pytrunc,
      filas, round2, rhe])).1 _ (by simp)

/-- C7: allocation is monotone left to right: whenever a later row has
received a positive paid amount, every earlier row is fully paid
(pending 0); hence at most the last touched row is partially paid and
all following rows receive nothing. -/
theorem C7_left_to_right (cron : List Fila) (pagos : List Pago) (hoy : ℤ)
    (i j : ℕ) (hij : i < j) (ai aj : FilaEstado)
    (hi : (estado_cuotas cron pagos hoy)[i]? = some ai)
    (hj : (estado_cuotas cron pagos hoy)[j]? = some aj)
    (hpos : 0 < aj.pagado) :
    ai.pendiente = 0 := by
  simp only [estado_cuotas, List.getElem?_map] at hi hj
  rcases hq : (drain cron ((pagos.map Pago.monto).sum))[j]? with _ | q
  · rw [hq] at hj
    simp at hj
  · rw [hq] at hj
    rcases hq2 : (drain cron ((pagos.map Pago.monto).sum))[i]? with _ | p
    · rw [hq2] at hi
      simp at hi
    · rw [hq2] at hi
      cases hj
      cases hi
      have hfull := drain_full_before cron _ i j hij p q hq hpos hq2
      show p.1.cuota - p.2 = 0
      rw [hfull]
      ring

/-- C7 witness: in the 3-installment scenario, installment 2 is
partially paid, so installment 1 must be fully paid. -/
theorem C7_left_to_right_witness :
    (⟨⟨1, 10, 100, 0, 100, 200⟩, 100, 0, Estado.alDia⟩ : FilaEstado).pendiente = 0 :=
  C7_left_to_right [⟨1, 10, 100, 0, 100, 200⟩, ⟨2, 20, 100, 0, 100, 100⟩,
      ⟨3, 30, 100, 0, 100, 0⟩] [⟨150, 5⟩] 0 0 1 (by norm_num)
    ⟨⟨1, 10, 100, 0, 100, 200⟩, 100, 0, Estado.alDia⟩
    ⟨⟨2, 20, 100, 0, 100, 100⟩, 50, 50, Estado.alDia⟩
    (by norm_num [estado_cuotas, drain])
    (by norm_num [estado_cuotas, drain]) (by norm_num)

/-- C2: every successfully generated schedule has a constant `Cuota`
across rows; when the period rate is zero each row's interest is 0 and
the stored payment is `principal / totalPayments` rounded to 2 decimals
(within the spec tolerance of 0.01); otherwise the stored payment is the
standard annuity formula value rounded to 2 decimals (within 0.01). -/
theorem C2_formula (monto tasa : ℚ) (plazo frec f0 : ℤ) (rows : List Fila)
    (hok : calcular_cronograma monto tasa plazo frec f0 = .ok rows) :
    (∀ f1 ∈ rows, ∀ f2 ∈ rows, f1.cuota = f2.cuota) ∧
    (tasaPeriodo tasa frec = 0 → ∀ fila ∈ rows,
      fila.interes = 0 ∧
      fila.cuota = round2 (monto / (pagosTotales plazo frec : ℚ)) ∧
      |fila.cuota - monto / (pagosTotales plazo frec : ℚ)| ≤ 1/100) ∧
    (tasaPeriodo tasa frec ≠ 0 → ∀ fila ∈ rows,
      fila.cuota = round2 (monto * (tasaPeriodo tasa frec /
        (1 - (1 + tasaPeriodo tasa frec) ^ (-(pagosTotales plazo frec))))) ∧
      |fila.cuota - monto * (tasaPeriodo tasa frec /
        (1 - (1 + tasaPeriodo tasa frec) ^ (-(pagosTotales plazo frec))))| ≤
        1/100) := by
  rcases calcular_cases monto tasa plazo frec f0 rows hok with ⟨htp, rfl⟩ | ⟨htp, rfl⟩
  · refine ⟨?_, ?_, ?_⟩
    · intro f1 h1 f2 h2
      rw [filas_cuota_mem _ _ _ _ _ _ _ f1 h1, filas_cuota_mem _ _ _ _ _ _ _ f2 h2]
    · intro _ fila hmem
      refine ⟨filas_interes_mem _ _ _ _ htp _ _ _ fila hmem,
        filas_cuota_mem _ _ _ _ _ _ _ fila hmem, ?_⟩
      rw [filas_cuota_mem _ _ _ _ _ _ _ fila hmem]
      exact round2_close _
    · intro hcontra
      exact absurd htp hcontra
  · refine ⟨?_, ?_, ?_⟩
    · intro f1 h1 f2 h2
      rw [filas_cuota_mem _ _ _ _ _ _ _ f1 h1, filas_cuota_mem _ _ _ _ _ _ _ f2 h2]
    · intro hcontra
      exact absurd hcontra htp
    · intro _ fila hmem
      refine ⟨filas_cuota_mem _ _ _ _ _ _ _ fila hmem, ?_⟩
      rw [filas_cuota_mem _ _ _ _ _ _ _ fila hmem]
      exact round2_close _

/-- C2 witness: the zero-rate clause evaluated on the first row of the
schedule for principal 100, rate 0, 2 monthly payments. -/
theorem C2_formula_witness :
    (⟨1, 30, 50, 0, 50, 50⟩ : Fila).interes = 0 ∧
    (⟨1, 30, 50, 0, 50, 50⟩ : Fila).cuota =
      round2 ((100 : ℚ) / (pagosTotales 2 12 : ℚ)) ∧
    |(⟨1, 30, 50, 0, 50, 50⟩ : Fila).cuota -
      (100 : ℚ) / (pagosTotales 2 12 : ℚ)| ≤ 1/100 :=
  ((C2_formula 100 0 2 12 0 [⟨1, 30, 50, 0, 50, 50⟩, ⟨2, 60, 50, 0, 50, 0⟩]
      (by norm_num [calcular_cronograma, pagosTotales, tasaPeriodo, pytrunc,
        filas, round2, rhe])).2.1
    (by norm_num [tasaPeriodo]) _ (by simp))

/-- C9 counterexample: for principal 2.6707, annual rate 2400 percent,
2 monthly payments, the code stores an interest of 4.01 in period 2,
whereas recomputing from period 1's rounded stored balance (2.00) would
give interest 4.00: the carried balance is NOT rounded before the next
period's computation. -/
theorem C9_counterexample :
    calcular_cronograma (26707/10000) 2400 2 12 0 = .ok
      [⟨1, 30, 601/100, 267/50, 67/100, 2⟩,
       ⟨2, 60, 601/100, 401/100, 2, 0⟩] ∧
    round2 ((2 : ℚ) * tasaPeriodo 2400 12) = 4 ∧
    (401 : ℚ)/100 ≠ 4 := by
  refine ⟨?_, ?_, by norm_num⟩
  · norm_num [calcular_cronograma, pagosTotales, tasaPeriodo, pytrunc, filas,
      round2, rhe, saldoIter]
  · norm_num [round2, rhe, tasaPeriodo]

/-- C9 amended: the schedule loop rounds only the emitted row fields to
2 decimals; the balance it carries between periods is the unrounded
recursion `saldoIter`, so row `k+1`'s interest is
`round2` of (unrounded balance × period rate), not a function of the
rounded stored balance. -/
theorem C9_unrounded (cuota tp : ℚ) (f0 frec : ℤ) (c k : ℕ) (s : ℚ)
    (h : k < (filas cuota tp f0 frec 1 c s).length) :
    (filas cuota tp f0 frec 1 c s).get ⟨k, h⟩ =
      ⟨1 + k, f0 + pytrunc ((((1 + k : ℕ) : ℚ) * 365) / (frec : ℚ)),
       round2 cuota, round2 (saldoIter cuota tp s k * tp),
       round2 (cuota - saldoIter cuota tp s k * tp),
       round2 (saldoIter cuota tp s (k + 1))⟩ :=
  filas_get cuota tp f0 frec c k 1 s h

/-- C9 witness: the extraction formula instantiated at the second row of
a concrete 2-row zero-rate schedule. -/
theorem C9_unrounded_witness :
    (filas 50 0 0 12 1 2 100).get ⟨1, by norm_num [filas_length]⟩ =
      ⟨1 + 1, 0 + pytrunc ((((1 + 1 : ℕ) : ℚ) * 365) / ((12 : ℤ) : ℚ)),
       round2 50, round2 (saldoIter 50 0 100 1 * 0),
       round2 (50 - saldoIter 50 0 100 1 * 0),
       round2 (saldoIter 50 0 100 (1 + 1))⟩ :=
  C9_unrounded 50 0 0 12 2 1 100 (by norm_num [filas_length])

/-- C10: every row of a successfully generated schedule has 1-based
`Periodo` numbering and due date
`disbursementDate + int(period * 365 / paymentsPerYear)` days: the code
follows the 365-day stepping policy uniformly, never calendar months. -/
theorem C10_dates (monto tasa : ℚ) (plazo frec f0 : ℤ) (rows : List Fila)
    (hok : calcular_cronograma monto tasa plazo frec f0 = .ok rows)
    (k : ℕ) (hk : k < rows.length) :
    (rows.get ⟨k, hk⟩).periodo = k + 1 ∧
    (rows.get ⟨k, hk⟩).fecha =
      f0 + pytrunc ((((k + 1 : ℕ) : ℚ) * 365) / (frec : ℚ)) := by
  rcases calcular_cases monto tasa plazo frec f0 rows hok with ⟨_, rfl⟩ | ⟨_, rfl⟩ <;>
    rw [filas_get] <;>
    exact ⟨by show 1 + k = k + 1; omega,
      by show f0 + pytrunc ((((1 + k : ℕ) : ℚ) * 365) / _) = _
         rw [Nat.add_comm 1 k]⟩

/-- C10 witness: the second row of the concrete 2-row schedule has
period index 2 and the 365-day-policy due date. -/
theorem C10_dates_witness :
    (([⟨1, 30, 50, 0, 50, 50⟩, ⟨2, 60, 50, 0, 50, 0⟩] : List Fila).get
        ⟨1, by norm_num⟩).periodo = 2 ∧
    (([⟨1, 30, 50, 0, 50, 50⟩, ⟨2, 60, 50, 0, 50, 0⟩] : List Fila).get
        ⟨1, by norm_num⟩).fecha =
      0 + pytrunc ((((1 + 1 : ℕ) : ℚ) * 365) / ((12 : ℤ) : ℚ)) :=
  C10_dates 100 0 2 12 0 [⟨1, 30, 50, 0, 50, 50⟩, ⟨2, 60, 50, 0, 50, 0⟩]
    (by norm_num [calcular_cronograma, pagosTotales, tasaPeriodo, pytrunc,
      filas, round2, rhe]) 1 (by norm_num)

/-- C8: the code performs no input validation: a negative principal and
a negative rate still produce a full 12-row schedule, and a non-positive
term or frequency silently yields an empty schedule — no
`InvalidInputError` is ever raised (the type does not even exist). -/
theorem C8_no_input_check :
    (calcular_cronograma (-1000) 12 12 12 0).toOption.map List.length = some 12 ∧
    (calcular_cronograma 1000 (-12) 12 12 0).toOption.map List.length = some 12 ∧
    (calcular_cronograma 1000 12 (-12) 12 0).toOption.map List.length = some 0 ∧
    (calcular_cronograma 1000 12 12 (-12) 0).toOption.map List.length = some 0 := by
  have e1 : pagosTotales 12 12 = 12 := pagosTotales_eq _ _ _ (by push_cast; norm_num)
  have e2 : pagosTotales (-12) 12 = -12 := pagosTotales_eq _ _ _ (by push_cast; norm_num)
  have e3 : pagosTotales 12 (-12) = -12 := pagosTotales_eq _ _ _ (by push_cast; norm_num)
  refine ⟨?_, ?_, ?_, ?_⟩ <;>
    (norm_num [calcular_cronograma, e1, e2, e3, tasaPeriodo,
      Except.toOption, filas_length, Int.toNat_ofNat]; try rfl)
